import Mathlib

/-!
Verification development for the pulsar backend (a membership-gated community
site API).  Python functions from the repository are shallowly embedded as
executable Lean definitions: dictionaries become association lists,
`None`-able values become `Option`, raised exceptions become `Except`
results, and the database/cache environment is passed explicitly.
-/

namespace Pulsar

/-! ### Permission-change validation (`pulsar/permissions/validators.py`, `check_permissions`) -/

/-- Accumulator state of the loop in `check_permissions`: the `add`,
`ungrant` and `delete` result lists plus the two error buckets of the
`errors` defaultdict (`errors['add']` and `errors['delete']`). -/
structure PermChangeState where
  add : List String
  ungrant : List String
  delete : List String
  errAdd : List String
  errDel : List String
deriving Repr, DecidableEq

/-- One iteration of the `for perm, active in permissions.items()` loop of
`check_permissions` (validators.py lines 100-116).  `ucPermissions` is
`user.user_class.permissions`, `userPermissions` the per-user override map
`UserPermission.from_user(user.id)` as an association list. -/
def checkPermStep (ucPermissions : List String) (userPermissions : List (String × Bool))
    (s : PermChangeState) (pa : String × Bool) : PermChangeState :=
  let perm := pa.1
  if pa.2 = true then
    let s1 :=
      match userPermissions.lookup perm with
      | some b =>
        if b = false then { s with delete := s.delete ++ [perm], add := s.add ++ [perm] }
        else s
      | none =>
        if perm ∈ ucPermissions then s else { s with add := s.add ++ [perm] }
    if perm ∈ s1.add ++ s1.delete then s1 else { s1 with errAdd := s1.errAdd ++ [perm] }
  else
    let s1 :=
      if userPermissions.lookup perm = some true then { s with delete := s.delete ++ [perm] }
      else s
    let s2 :=
      if perm ∈ ucPermissions then { s1 with ungrant := s1.ungrant ++ [perm] } else s1
    if perm ∈ s2.delete ++ s2.ungrant then s2 else { s2 with errDel := s2.errDel ++ [perm] }

/-- The message assembled at validators.py lines 118-126: the add-error
sentence (when present) followed by the delete-error sentence (when
present), joined by a single space. -/
def buildPermErrorMessage (errAdd errDel : List String) : String :=
  String.intercalate " "
    ((if errAdd = [] then []
      else ["The following permissions could not be added: " ++
              String.intercalate ", " errAdd ++ "."]) ++
     (if errDel = [] then []
      else ["The following permissions could not be deleted: " ++
              String.intercalate ", " errDel ++ "."]))

/-- State of the accumulators after the whole permission loop has run. -/
def permFinalState (ucPermissions : List String) (userPermissions : List (String × Bool))
    (permissions : List (String × Bool)) : PermChangeState :=
  permissions.foldl (checkPermStep ucPermissions userPermissions) ⟨[], [], [], [], []⟩

/-- `check_permissions(user, permissions)` from
`pulsar/permissions/validators.py` lines 76-128.  The permission-change
dict is embedded as an association list (Python dicts iterate in insertion
order and have distinct keys); raising `APIException(message)` is embedded
as `Except.error message`. -/
def check_permissions (ucPermissions : List String) (userPermissions : List (String × Bool))
    (permissions : List (String × Bool)) :
    Except String (List String × List String × List String) :=
  let s := permFinalState ucPermissions userPermissions permissions
  if s.errAdd = [] ∧ s.errDel = [] then .ok (s.add, s.ungrant, s.delete)
  else .error (buildPermErrorMessage s.errAdd s.errDel)

/-- Condition under which one loop iteration appends `pa.1` to `add`:
the change requests a grant and the user either carries an explicit revoke
override or carries no override at all and the class does not imply it. -/
def wouldAdd (uc : List String) (up : List (String × Bool)) (pa : String × Bool) : Bool :=
  pa.2 &&
    (match up.lookup pa.1 with
     | some b => !b
     | none => !uc.contains pa.1)

/-- Condition under which one loop iteration appends `pa.1` to `delete`. -/
def wouldDelete (up : List (String × Bool)) (pa : String × Bool) : Bool :=
  match up.lookup pa.1 with
  | some b => if pa.2 then !b else b
  | none => false

/-- Condition under which one loop iteration appends `pa.1` to `ungrant`. -/
def wouldUngrant (uc : List String) (pa : String × Bool) : Bool :=
  !pa.2 && uc.contains pa.1

/-- Condition under which one loop iteration records `pa.1` as
could-not-be-added. -/
def wouldErrAdd (uc : List String) (up : List (String × Bool)) (pa : String × Bool) : Bool :=
  pa.2 && !(wouldAdd uc up pa)

/-- Condition under which one loop iteration records `pa.1` as
could-not-be-deleted. -/
def wouldErrDel (uc : List String) (up : List (String × Bool)) (pa : String × Bool) : Bool :=
  !pa.2 && !(wouldDelete up pa) && !(wouldUngrant uc pa)

theorem checkPermStep_eq (uc : List String) (up : List (String × Bool)) (s : PermChangeState)
    (pa : String × Bool) (ha : pa.1 ∉ s.add) (hd : pa.1 ∉ s.delete) (hu : pa.1 ∉ s.ungrant) :
    checkPermStep uc up s pa =
      { add := s.add ++ if wouldAdd uc up pa then [pa.1] else [],
        ungrant := s.ungrant ++ if wouldUngrant uc pa then [pa.1] else [],
        delete := s.delete ++ if wouldDelete up pa then [pa.1] else [],
        errAdd := s.errAdd ++ if wouldErrAdd uc up pa then [pa.1] else [],
        errDel := s.errDel ++ if wouldErrDel uc up pa then [pa.1] else [] } := by
  obtain ⟨p, a⟩ := pa
  simp only at ha hd hu
  cases a <;> rcases hl : List.lookup p up with _ | _ | _ <;> by_cases hm : p ∈ uc <;>
    simp [checkPermStep, wouldAdd, wouldUngrant, wouldDelete, wouldErrAdd, wouldErrDel,
      hl, hm, ha, hd, hu, List.mem_append]

example : check_permissions ["list_permissions", "view_invites"]
    [("manipulate_permissions", true), ("list_permissions", true),
     ("change_password", true), ("send_invites", false)]
    [("list_permissions", false), ("change_password", false),
     ("view_invites", false), ("send_invites", true)] =
    .ok (["send_invites"], ["list_permissions", "view_invites"],
         ["list_permissions", "change_password", "send_invites"]) := by rfl

example : check_permissions ["legacy"] [("send_invites", true), ("view_invites", true)]
    [("send_invites", true), ("view_invites", false)] =
    .error "The following permissions could not be added: send_invites." := by rfl

theorem append_ite_singleton {α : Type} (xs zs : List α) (c : Bool) (y : α) :
    (xs ++ if c then [y] else []) ++ zs = xs ++ if c then y :: zs else zs := by
  cases c <;> simp

theorem permFold_eq (uc : List String) (up : List (String × Bool))
    (l : List (String × Bool)) :
    ∀ s : PermChangeState,
      (∀ pa ∈ l, pa.1 ∉ s.add ∧ pa.1 ∉ s.delete ∧ pa.1 ∉ s.ungrant) →
      (l.map Prod.fst).Nodup →
      l.foldl (checkPermStep uc up) s =
        { add := s.add ++ (l.filter (wouldAdd uc up)).map Prod.fst,
          ungrant := s.ungrant ++ (l.filter (wouldUngrant uc)).map Prod.fst,
          delete := s.delete ++ (l.filter (wouldDelete up)).map Prod.fst,
          errAdd := s.errAdd ++ (l.filter (wouldErrAdd uc up)).map Prod.fst,
          errDel := s.errDel ++ (l.filter (wouldErrDel uc up)).map Prod.fst } := by
  induction l with
  | nil => intro s _ _; simp
  | cons pa t ih =>
    intro s hdisj hnd
    have hpa := hdisj pa (List.mem_cons_self pa t)
    have hnd2 : (pa.1 :: t.map Prod.fst).Nodup := by rw [List.map_cons] at hnd; exact hnd
    have hfresh : pa.1 ∉ t.map Prod.fst := (List.nodup_cons.mp hnd2).1
    have hnd' : (t.map Prod.fst).Nodup := (List.nodup_cons.mp hnd2).2
    have hdisj' : ∀ qa ∈ t,
        qa.1 ∉ (checkPermStep uc up s pa).add ∧
        qa.1 ∉ (checkPermStep uc up s pa).delete ∧
        qa.1 ∉ (checkPermStep uc up s pa).ungrant := by
      intro qa hq
      have hqs := hdisj qa (List.mem_cons_of_mem pa hq)
      have hqne : qa.1 ≠ pa.1 := by
        intro h
        exact hfresh (h ▸ List.mem_map_of_mem Prod.fst hq)
      rw [checkPermStep_eq uc up s pa hpa.1 hpa.2.1 hpa.2.2]
      refine ⟨?_, ?_, ?_⟩ <;>
        · simp only [List.mem_append]
          rintro (h | h)
          · first
              | exact hqs.1 h
              | exact hqs.2.1 h
              | exact hqs.2.2 h
          · revert h
            split <;> simp [hqne]
    rw [List.foldl_cons, ih (checkPermStep uc up s pa) hdisj' hnd',
      checkPermStep_eq uc up s pa hpa.1 hpa.2.1 hpa.2.2]
    simp only [List.filter_cons, apply_ite (List.map (Prod.fst : String × Bool → String)),
      List.map_cons, append_ite_singleton]

theorem permFinalState_eq (uc : List String) (up : List (String × Bool))
    (perms : List (String × Bool)) (hnd : (perms.map Prod.fst).Nodup) :
    permFinalState uc up perms =
      { add := (perms.filter (wouldAdd uc up)).map Prod.fst,
        ungrant := (perms.filter (wouldUngrant uc)).map Prod.fst,
        delete := (perms.filter (wouldDelete up)).map Prod.fst,
        errAdd := (perms.filter (wouldErrAdd uc up)).map Prod.fst,
        errDel := (perms.filter (wouldErrDel uc up)).map Prod.fst } := by
  have h := permFold_eq uc up perms ⟨[], [], [], [], []⟩ (by intro pa _; simp) hnd
  simpa [permFinalState] using h

theorem mem_filter_map_fst (f : String × Bool → Bool) (perms : List (String × Bool))
    (pa : String × Bool) (h : pa ∈ perms) (hf : f pa = true) :
    pa.1 ∈ (perms.filter f).map Prod.fst :=
  List.mem_map.mpr ⟨pa, List.mem_filter.mpr ⟨h, hf⟩, rfl⟩

/-- Claim C1: for every user and permission-change map, `check_permissions`
computes: a permission requested `true` carrying an explicit revoke override
goes to both the delete and the add list; one requested `true` with no
explicit override and not class-implied goes to the add list; one requested
`true` that the user already holds (explicit grant, or class-implied without
revoke override) is collected as could-not-be-added; one requested `false`
with an explicit grant override goes to the delete list; one requested
`false` that is class-implied goes to the ungrant list; one requested
`false` held neither way is collected as could-not-be-deleted; and if
anything was collected a single exception is raised whose message lists the
could-not-be-added and, separately, the could-not-be-deleted permissions. -/
theorem check_permissions_correct (uc : List String) (up : List (String × Bool))
    (perms : List (String × Bool)) (hnd : (perms.map Prod.fst).Nodup) :
    (∀ p, (p, true) ∈ perms → up.lookup p = some false →
        p ∈ (permFinalState uc up perms).delete ∧ p ∈ (permFinalState uc up perms).add) ∧
    (∀ p, (p, true) ∈ perms → up.lookup p = none → p ∉ uc →
        p ∈ (permFinalState uc up perms).add) ∧
    (∀ p, (p, true) ∈ perms →
        (up.lookup p = some true ∨ (p ∈ uc ∧ up.lookup p ≠ some false)) →
        p ∈ (permFinalState uc up perms).errAdd) ∧
    (∀ p, (p, false) ∈ perms → up.lookup p = some true →
        p ∈ (permFinalState uc up perms).delete) ∧
    (∀ p, (p, false) ∈ perms → p ∈ uc → p ∈ (permFinalState uc up perms).ungrant) ∧
    (∀ p, (p, false) ∈ perms → up.lookup p ≠ some true → p ∉ uc →
        p ∈ (permFinalState uc up perms).errDel) ∧
    ((permFinalState uc up perms).errAdd ≠ [] ∨ (permFinalState uc up perms).errDel ≠ [] →
        check_permissions uc up perms =
          .error (buildPermErrorMessage (permFinalState uc up perms).errAdd
              (permFinalState uc up perms).errDel)) ∧
    ((permFinalState uc up perms).errAdd = [] ∧ (permFinalState uc up perms).errDel = [] →
        check_permissions uc up perms =
          .ok ((permFinalState uc up perms).add, (permFinalState uc up perms).ungrant,
            (permFinalState uc up perms).delete)) := by
  rw [permFinalState_eq uc up perms hnd]
  refine ⟨?_, ?_, ?_, ?_, ?_, ?_, ?_, ?_⟩
  · intro p hp hlk
    exact ⟨mem_filter_map_fst _ _ (p, true) hp (by simp [wouldDelete, hlk]),
      mem_filter_map_fst _ _ (p, true) hp (by simp [wouldAdd, hlk])⟩
  · intro p hp hlk hm
    exact mem_filter_map_fst _ _ (p, true) hp (by simp [wouldAdd, hlk, hm])
  · intro p hp hcase
    refine mem_filter_map_fst _ _ (p, true) hp ?_
    rcases hcase with hlk | ⟨hm, hlk⟩
    · simp [wouldErrAdd, wouldAdd, hlk]
    · rcases hl : List.lookup p up with _ | _ | _
      · simp [wouldErrAdd, wouldAdd, hl, hm]
      · exact absurd hl hlk
      · simp [wouldErrAdd, wouldAdd, hl]
  · intro p hp hlk
    exact mem_filter_map_fst _ _ (p, false) hp (by simp [wouldDelete, hlk])
  · intro p hp hm
    exact mem_filter_map_fst _ _ (p, false) hp (by simp [wouldUngrant, hm])
  · intro p hp hlk hm
    refine mem_filter_map_fst _ _ (p, false) hp ?_
    rcases hl : List.lookup p up with _ | _ | _
    · simp [wouldErrDel, wouldDelete, wouldUngrant, hl, hm]
    · simp [wouldErrDel, wouldDelete, wouldUngrant, hl, hm]
    · exact absurd hl hlk
  · intro herr
    rw [check_permissions, permFinalState_eq uc up perms hnd]
    rcases herr with h | h <;> simp_all
  · intro herr
    rw [check_permissions, permFinalState_eq uc up perms hnd]
    simp_all

/-- Witness for `check_permissions_correct`: a change map requesting a
revoke-overridden permission back produces it in both the delete and the
add accumulator. -/
theorem check_permissions_correct_witness :
    "perm_rev" ∈ (permFinalState ["perm_uc"] [("perm_rev", false)] [("perm_rev", true)]).delete ∧
    "perm_rev" ∈ (permFinalState ["perm_uc"] [("perm_rev", false)] [("perm_rev", true)]).add :=
  (check_permissions_correct ["perm_uc"] [("perm_rev", false)] [("perm_rev", true)]
    (by decide)).1 "perm_rev" (by decide) (by decide)

/-! ### Base model list retrieval (`pulsar/base_model.py`, `get_many`) -/

/-- A row as `get_many` consults it: primary key, liveness flag, and the
(attribute, truthiness) pairs read by the `required_properties` check
(`getattr(model, prop, False)`). -/
structure Row where
  id : Nat
  deleted : Bool
  props : List (String × Bool)
deriving Repr, DecidableEq

/-- `cls.from_id(id, include_dead=...)` (base_model.py lines 78-117) as
`get_many` calls it: the cache-aside load is abstracted into a lookup in
the backing store; a row whose liveness flag is set is returned only when
`includeDead` is true. -/
def Row.from_id (store : List Row) (includeDead : Bool) (id : Nat) : Option Row :=
  match store.find? (fun r => r.id == id) with
  | some r => if includeDead || !r.deleted then some r else none
  | none => none

/-- Truthiness of the Python `limit` value in `if limit and len(models) >= limit`:
`None` and `0` are falsy. -/
def limitTruthy : Option Nat → Bool
  | none => false
  | some 0 => false
  | some (_ + 1) => true

/-- The accumulation loop of `get_many` (base_model.py lines 223-233):
resolve each id through `from_id`, skip rows failing a required-property
truthiness check, and break once `limit` (when truthy) models are held. -/
def getManyLoop (store : List Row) (includeDead : Bool) (requiredProperties : List String)
    (limit : Option Nat) : List Nat → List Row → List Row
  | [], models => models
  | id :: rest, models =>
    match Row.from_id store includeDead id with
    | none => getManyLoop store includeDead requiredProperties limit rest models
    | some m =>
      if requiredProperties.all (fun prop => (m.props.lookup prop).getD false) then
        let models2 := models ++ [m]
        if limitTruthy limit = true ∧ limit.getD 0 ≤ models2.length then models2
        else getManyLoop store includeDead requiredProperties limit rest models2
      else getManyLoop store includeDead requiredProperties limit rest models

/-- Python list slicing `l[k:]`, for a possibly negative start index. -/
def pySliceFrom {α : Type} (k : Int) (l : List α) : List α :=
  if 0 ≤ k then l.drop k.toNat
  else l.drop (((l.length : Int) + k).toNat)

/-- The reassignment `limit = limit or 50` performed when `page` is set
(base_model.py line 220): `None` and `0` both become 50. -/
def pagedLimit : Option Nat → Nat
  | none => 50
  | some 0 => 50
  | some (n + 1) => n + 1

/-- `get_many` (base_model.py lines 181-234), with the cached/queried id
list passed in as `ids`.  When `page` is set the id list is sliced at
Python index `(page - 1) * limit` with the reassigned limit. -/
def get_many (store : List Row) (ids : List Nat) (requiredProperties : List String)
    (includeDead : Bool) (page : Option Nat) (limit : Option Nat) : List Row :=
  match page with
  | none => getManyLoop store includeDead requiredProperties limit ids []
  | some p =>
    let lim := pagedLimit limit
    getManyLoop store includeDead requiredProperties (some lim)
      (pySliceFrom (((p : Int) - 1) * lim) ids) []

/-- A row as `get_many` would keep it: resolvable through `from_id` and
with every required property truthy. -/
def goodRow (store : List Row) (includeDead : Bool) (requiredProperties : List String)
    (id : Nat) : Option Row :=
  match Row.from_id store includeDead id with
  | some m =>
    if requiredProperties.all (fun prop => (m.props.lookup prop).getD false) then some m
    else none
  | none => none

theorem getManyLoop_take (store : List Row) (includeDead : Bool) (rp : List String)
    (lim : Nat) (ids : List Nat) :
    ∀ acc : List Row, acc.length < lim →
      getManyLoop store includeDead rp (some lim) ids acc =
        acc ++ (ids.filterMap (goodRow store includeDead rp)).take (lim - acc.length) := by
  induction ids with
  | nil => intro acc _; simp [getManyLoop]
  | cons id rest ih =>
    intro acc hacc
    simp only [getManyLoop]
    cases hres : Row.from_id store includeDead id with
    | none => simp [List.filterMap_cons, goodRow, hres, ih acc hacc]
    | some m =>
      by_cases hprop : rp.all (fun prop => (m.props.lookup prop).getD false) = true
      · have hlim1 : 1 ≤ lim := Nat.lt_of_le_of_lt (Nat.zero_le _) hacc
        have htr : limitTruthy (some lim) = true := by
          cases lim with
          | zero => omega
          | succ n => rfl
        simp only [hprop, if_true, htr, List.length_append, List.length_singleton,
          Option.getD_some, true_and]
        by_cases hstop : lim ≤ acc.length + 1
        · have hlen : lim - acc.length = 1 := by omega
          simp [hstop, List.filterMap_cons, goodRow, hres, hprop, hlen]
        · have hlt : (acc ++ [m]).length < lim := by
            simp only [List.length_append, List.length_singleton]; omega
          rw [if_neg hstop, ih (acc ++ [m]) hlt]
          have hsub : lim - acc.length = (lim - (acc ++ [m]).length) + 1 := by
            simp only [List.length_append, List.length_singleton]; omega
          simp [List.filterMap_cons, goodRow, hres, hprop, hsub, List.take_succ_cons]
      · simp [hprop, goodRow, hres, List.filterMap_cons, ih acc hacc]

/-- Modelled from the claim C3 wording alone, for comparison against the
code: with `page` set, `limit` defaults to 50 only when it is not given;
the id list is sliced from index `(page - 1) * limit`; each id resolves
through `from_id`; rows with a falsy required property are skipped without
counting; and collection stops as soon as `limit` models are collected. -/
def get_many_claimed (store : List Row) (ids : List Nat) (requiredProperties : List String)
    (includeDead : Bool) (page : Nat) (limit : Option Nat) : List Row :=
  let lim := limit.getD 50
  ((ids.drop ((page - 1) * lim)).filterMap (goodRow store includeDead requiredProperties)).take
    lim

/-- Claim C3 counterexample: at `page = 1`, `limit = 0` the code reassigns
`limit = limit or 50` (0 is falsy) and returns up to 50 models, while the
claim as stated keeps the given limit 0 and would return no model. -/
theorem get_many_limit_zero_counterexample :
    get_many [⟨1, false, []⟩, ⟨2, false, []⟩] [1, 2] [] false (some 1) (some 0) ≠
      get_many_claimed [⟨1, false, []⟩, ⟨2, false, []⟩] [1, 2] [] false 1 (some 0) := by
  intro h
  have h2 : (get_many [⟨1, false, []⟩, ⟨2, false, []⟩] [1, 2] [] false (some 1)
      (some 0)).length =
      (get_many_claimed [⟨1, false, []⟩, ⟨2, false, []⟩] [1, 2] [] false 1 (some 0)).length :=
    congrArg List.length h
  simp only [show (get_many [⟨1, false, []⟩, ⟨2, false, []⟩] [1, 2] [] false (some 1)
      (some 0)).length = 2 from rfl,
    show (get_many_claimed [⟨1, false, []⟩, ⟨2, false, []⟩] [1, 2] [] false 1
      (some 0)).length = 0 from rfl] at h2
  omega

/-- Claim C3 (amended): for every call with `page` set, the effective limit
is 50 when `limit` is not given or is 0 (Python falsiness); the id list is
sliced (with Python slice semantics) from signed index
`(page - 1) * limit`, with no upper bound on the slice; each remaining id
is resolved through `from_id`; rows failing a required-property truthiness
check are skipped without counting against the limit; and accumulation
stops as soon as the effective limit is reached. -/
theorem get_many_paged (store : List Row) (ids : List Nat) (rp : List String)
    (includeDead : Bool) (page : Nat) (limit : Option Nat) :
    get_many store ids rp includeDead (some page) limit =
      ((pySliceFrom (((page : Int) - 1) * pagedLimit limit) ids).filterMap
        (goodRow store includeDead rp)).take (pagedLimit limit) := by
  have hlim : 1 ≤ pagedLimit limit := by
    rcases limit with _ | _ | n <;> simp [pagedLimit]
  have h := getManyLoop_take store includeDead rp (pagedLimit limit)
    (pySliceFrom (((page : Int) - 1) * pagedLimit limit) ids) [] (by simpa using hlim)
  simpa [get_many] using h

/-! ### Forum post listing (`pulsar/forums/models.py`, `ForumPost.from_thread`) -/

/-- A forum post row: primary key, owning thread and soft-delete flag. -/
structure ForumPostRow where
  id : Nat
  threadId : Nat
  deleted : Bool
deriving Repr, DecidableEq

/-- `ForumPost.from_id` (forums/models.py lines 217-224): cache-aside load
abstracted into a store lookup; a deleted post is returned only when
`include_dead` is passed. -/
def ForumPostRow.from_id (store : List ForumPostRow) (includeDead : Bool) (id : Nat) :
    Option ForumPostRow :=
  match store.find? (fun p => p.id == id) with
  | some p => if includeDead || !p.deleted then some p else none
  | none => none

/-- The `for post_id in post_ids[page * limit + 1:]` loop of
`ForumPost.from_thread` (forums/models.py lines 236-244).  The body calls
`from_id(post_id)` without forwarding `include_dead`, then evaluates
`include_dead or not post.deleted`; when `include_dead` is false and the
post resolved to `None` (a soft-deleted post), the `post.deleted`
attribute access raises `AttributeError`, embedded as `Except.error`.
When the guard passes, the body appends the result of a second
`from_id(post_id)` call (again without `include_dead`), which can be
`none`. -/
def fromThreadLoop (store : List ForumPostRow) (includeDead : Bool) (limit : Nat) :
    List Nat → List (Option ForumPostRow) → Nat → Except String (List (Option ForumPostRow))
  | [], posts, _ => .ok posts
  | pid :: rest, posts, numPosts =>
    match ForumPostRow.from_id store false pid with
    | none =>
      if includeDead then
        let posts2 := posts ++ [ForumPostRow.from_id store false pid]
        if limit ≤ numPosts + 1 then .ok posts2
        else fromThreadLoop store includeDead limit rest posts2 (numPosts + 1)
      else .error "AttributeError: NoneType object has no attribute deleted"
    | some post =>
      if includeDead || !post.deleted then
        let posts2 := posts ++ [ForumPostRow.from_id store false pid]
        if limit ≤ numPosts + 1 then .ok posts2
        else fromThreadLoop store includeDead limit rest posts2 (numPosts + 1)
      else fromThreadLoop store includeDead limit rest posts numPosts

/-- `ForumPost.from_thread` (forums/models.py lines 226-245), with the
cached/queried ascending post-id list of the thread passed in as
`postIds`; the loop iterates over the slice `post_ids[page * limit + 1:]`. -/
def ForumPostRow.from_thread (store : List ForumPostRow) (postIds : List Nat)
    (page limit : Nat) (includeDead : Bool) : Except String (List (Option ForumPostRow)) :=
  fromThreadLoop store includeDead limit (postIds.drop (page * limit + 1)) [] 0

/-- Claim C4: `ForumPost.from_thread` slices its id list at
`page * limit + 1` while `BaseModel.get_many` slices at
`(page - 1) * limit`; at page 1 with limit 2 over ids 1..5 `get_many`
selects rows 1-2 while `from_thread` selects rows 4-5, and at
`from_thread`'s own zero-based first page (page 0) it selects rows 2-3,
skipping the first row of the page. -/
theorem pagination_conventions_disagree :
    (get_many [⟨1, false, []⟩, ⟨2, false, []⟩, ⟨3, false, []⟩, ⟨4, false, []⟩, ⟨5, false, []⟩]
        [1, 2, 3, 4, 5] [] false (some 1) (some 2)).map Row.id = [1, 2] ∧
    ForumPostRow.from_thread
        [⟨1, 7, false⟩, ⟨2, 7, false⟩, ⟨3, 7, false⟩, ⟨4, 7, false⟩, ⟨5, 7, false⟩]
        [1, 2, 3, 4, 5] 1 2 false =
      .ok [some ⟨4, 7, false⟩, some ⟨5, 7, false⟩] ∧
    ForumPostRow.from_thread
        [⟨1, 7, false⟩, ⟨2, 7, false⟩, ⟨3, 7, false⟩, ⟨4, 7, false⟩, ⟨5, 7, false⟩]
        [1, 2, 3, 4, 5] 0 2 false =
      .ok [some ⟨2, 7, false⟩, some ⟨3, 7, false⟩] :=
  ⟨rfl, rfl, rfl⟩

/-- Claim C10: with `include_dead` false, `ForumPost.from_thread` is not
total: a thread whose post-id window contains a soft-deleted post makes
the loop read `.deleted` off the `None` that `from_id` returned, raising
`AttributeError` instead of returning a list. -/
theorem from_thread_dead_post_crash :
    ForumPostRow.from_thread [⟨1, 7, false⟩, ⟨2, 7, true⟩] [1, 2] 0 50 false =
      .error "AttributeError: NoneType object has no attribute deleted" := rfl

/-! ### Cache-aside single-row load (`pulsar/base_model.py`, `from_cache` / `_valid_data`) -/

/-- A value found in the cache under a model key: either a Python dict
mapping column names to stored values, or some other pickled value
together with its truthiness. -/
inductive CacheValue where
  | dict (entries : List (String × Nat))
  | other (truthy : Bool)
deriving Repr, DecidableEq

/-- `_valid_data(data)` (base_model.py lines 236-246) for data already
known to be a dict: the key set equals the declared column set. -/
def _valid_data (columns : List String) (entries : List (String × Nat)) : Bool :=
  (entries.map Prod.fst).all (fun k => columns.contains k) &&
    columns.all (fun c => (entries.map Prod.fst).contains c)

/-- Outcome of one `from_cache` call (base_model.py lines 119-149): the
returned row (as its column mapping), whether `cache.delete(key)` was
issued, and whether the backing query was run. -/
structure FromCacheResult where
  result : Option (List (String × Nat))
  deletedKey : Bool
  ranQuery : Bool
deriving Repr, DecidableEq

/-- `from_cache(key, query=...)` (base_model.py lines 119-149): `cached`
is what `cache.get(key)` held; `hasQuery` is the truthiness of the
`query` argument and `queryResult` the row `query.first()` yields.  Only
a truthy dict enters the validation branch (`if data and
isinstance(data, dict)`); only an invalid dict is deleted. -/
def from_cache (columns : List String) (cached : Option CacheValue)
    (hasQuery : Bool) (queryResult : Option (List (String × Nat))) : FromCacheResult :=
  match cached with
  | some (.dict entries) =>
    if entries.isEmpty then
      if hasQuery then ⟨queryResult, false, true⟩ else ⟨none, false, false⟩
    else if _valid_data columns entries then ⟨some entries, false, false⟩
    else if hasQuery then ⟨queryResult, true, true⟩ else ⟨none, true, false⟩
  | some (.other _) => if hasQuery then ⟨queryResult, false, true⟩ else ⟨none, false, false⟩
  | none => if hasQuery then ⟨queryResult, false, true⟩ else ⟨none, false, false⟩

/-- Claim C6 counterexample: a truthy cached value that is not a mapping
(e.g. a pickled list) fails `isinstance(data, dict)`, so the lookup falls
through to the query WITHOUT deleting the stale entry, although the claim
says any mismatch deletes it. -/
theorem from_cache_nondict_not_deleted :
    (from_cache ["id"] (some (.other true)) true (some [("id", 1)])).deletedKey = false ∧
    (from_cache ["id"] (some (.other true)) true (some [("id", 1)])).ranQuery = true ∧
    (from_cache ["id"] (some (.other true)) true (some [("id", 1)])).result =
      some [("id", 1)] :=
  ⟨rfl, rfl, rfl⟩

/-- Claim C6 (amended): a cached value is used to construct and return a
model only if it is a mapping whose key set exactly equals the declared
column set; a cached mapping with a mismatched key set is deleted and the
lookup falls through to the backing query; a cached non-mapping (or
falsy) value is skipped without deletion and the lookup also falls
through; so `from_cache` never returns a model built from cached data
whose column shape does not match the current schema. -/
theorem from_cache_shape_safety (columns : List String) :
    (∀ (cached : Option CacheValue) (hasQuery : Bool)
        (queryResult : Option (List (String × Nat))) (entries : List (String × Nat)),
      (from_cache columns cached hasQuery queryResult).ranQuery = false →
      (from_cache columns cached hasQuery queryResult).result = some entries →
      cached = some (.dict entries) ∧ _valid_data columns entries = true) ∧
    (∀ (entries : List (String × Nat)) (hasQuery : Bool)
        (queryResult : Option (List (String × Nat))),
      entries.isEmpty = false → _valid_data columns entries = false →
      from_cache columns (some (.dict entries)) hasQuery queryResult =
        ⟨if hasQuery then queryResult else none, true, hasQuery⟩) ∧
    (∀ (truthy hasQuery : Bool) (queryResult : Option (List (String × Nat))),
      from_cache columns (some (.other truthy)) hasQuery queryResult =
        ⟨if hasQuery then queryResult else none, false, hasQuery⟩) := by
  refine ⟨?_, ?_, ?_⟩
  · intro cached hasQuery queryResult entries hq hr
    match cached with
    | none =>
      cases hasQuery <;> simp_all [from_cache]
    | some (.other t) =>
      cases hasQuery <;> simp_all [from_cache]
    | some (.dict es) =>
      by_cases hemp : es.isEmpty <;> by_cases hval : _valid_data columns es = true <;>
        cases hasQuery <;> simp_all [from_cache]
  · intro entries hasQuery queryResult hemp hval
    cases hasQuery <;> simp [from_cache, hemp, hval]
  · intro truthy hasQuery queryResult
    cases hasQuery <;> simp [from_cache]

/-- Witness for `from_cache_shape_safety`: a cached mapping missing the
`name` column is evicted and the query result is returned instead. -/
theorem from_cache_shape_safety_witness :
    from_cache ["id", "name"] (some (.dict [("id", 1)])) true
        (some [("id", 1), ("name", 5)]) =
      ⟨if true then some [("id", 1), ("name", 5)] else none, true, true⟩ :=
  (from_cache_shape_safety ["id", "name"]).2.1 [("id", 1)] true
    (some [("id", 1), ("name", 5)]) (by decide) (by decide)

/-! ### Forum listing by category (`pulsar/forums/models.py`, `Forum.from_category`) -/

/-- A forum row: primary key, owning category, ordering position and
soft-delete flag. -/
structure ForumRow where
  id : Nat
  categoryId : Nat
  position : Nat
  deleted : Bool
deriving Repr, DecidableEq

/-- A Python value passed where a row id is expected: an integer primary
key, or the builtin function `id` — which the loop body of
`from_category` passes by mistake; the builtin compares equal to no
integer primary key. -/
inductive PyVal where
  | intId (id : Nat)
  | builtinId
deriving Repr, DecidableEq

/-- `Forum.from_id` (forums/models.py lines 68-75): cache-aside load
abstracted into a store lookup on the SQLAlchemy comparison
`cls.id == id`, taken over the full Python value; a deleted forum is
returned only when `include_dead` is passed. -/
def ForumRow.from_id (store : List ForumRow) (includeDead : Bool) (v : PyVal) :
    Option ForumRow :=
  match store.find? (fun f => PyVal.intId f.id == v) with
  | some f => if includeDead || !f.deleted then some f else none
  | none => none

/-- Insertion into a forum list sorted by ascending `position`, modelling
`order_by(cls.position.asc())` of the id query in `from_category`. -/
def insertByPosition (f : ForumRow) : List ForumRow → List ForumRow
  | [] => [f]
  | g :: t => if f.position ≤ g.position then f :: g :: t else g :: insertByPosition f t

/-- The ordered query result underlying `from_category`. -/
def sortByPosition : List ForumRow → List ForumRow
  | [] => []
  | f :: t => insertByPosition f (sortByPosition t)

/-- `Forum.from_category` (forums/models.py lines 77-92): take the cached
forum-id list (falsy values recomputed), or query the category's forum
ids ordered by position; then loop `for forum_id in forum_ids:
forum = cls.from_id(id)` — the call passes the Python BUILTIN `id`
function instead of the loop variable `forum_id`, so every lookup is made
with `PyVal.builtinId`. -/
def ForumRow.from_category (store : List ForumRow) (cachedIds : Option (List Nat))
    (categoryId : Nat) : List ForumRow :=
  let queried :=
    (sortByPosition (store.filter (fun f => f.categoryId == categoryId))).map (fun f => f.id)
  let forum_ids := match cachedIds with
    | some l => if l.isEmpty then queried else l
    | none => queried
  forum_ids.foldl
    (fun forums _ =>
      match ForumRow.from_id store false PyVal.builtinId with
      | some f => forums ++ [f]
      | none => forums) []

theorem from_id_builtin_eq_none (store : List ForumRow) (includeDead : Bool) :
    ForumRow.from_id store includeDead PyVal.builtinId = none := by
  rw [ForumRow.from_id]
  have h : store.find? (fun f => PyVal.intId f.id == PyVal.builtinId) = none := by
    rw [List.find?_eq_none]
    intro f _
    simp
  rw [h]

/-- Claim C7: `Forum.from_category` never returns any forum at all — its
loop resolves the Python builtin `id` instead of each `forum_id`, so no
category's non-deleted forums are returned; in particular a category with
one live forum yields the empty list. -/
theorem from_category_returns_nothing :
    (∀ (store : List ForumRow) (cachedIds : Option (List Nat)) (categoryId : Nat),
      ForumRow.from_category store cachedIds categoryId = []) ∧
    ForumRow.from_category [⟨1, 1, 0, false⟩] none 1 = [] := by
  have hfold : ∀ (store : List ForumRow) (l : List Nat),
      l.foldl
        (fun forums _ =>
          match ForumRow.from_id store false PyVal.builtinId with
          | some f => forums ++ [f]
          | none => forums) [] = [] := by
    intro store l
    have hgen : ∀ (l2 : List Nat) (acc : List ForumRow),
        l2.foldl
          (fun forums _ =>
            match ForumRow.from_id store false PyVal.builtinId with
            | some f => forums ++ [f]
            | none => forums) acc = acc := by
      intro l2
      induction l2 with
      | nil => intro acc; rfl
      | cons x t ih =>
        intro acc
        simp only [List.foldl_cons]
        have hstep :
            (match ForumRow.from_id store false PyVal.builtinId with
              | some f => acc ++ [f]
              | none => acc) = acc := by
          rw [from_id_builtin_eq_none]
        rw [hstep]
        exact ih acc
    exact hgen l []
  constructor
  · intro store cachedIds categoryId
    simp only [ForumRow.from_category]
    exact hfold store _
  · rfl

/-! ### Forum thread modification (`pulsar/forums/threads.py`, `modify_thread`) -/

/-- A forum thread row (forums/models.py `ForumThread` columns consulted
by `modify_thread`). -/
structure ThreadRec where
  id : Nat
  topic : String
  forumId : Nat
  posterId : Nat
  locked : Bool
  sticky : Bool
  deleted : Bool
deriving Repr, DecidableEq

/-- Modelled from the spec: `Forum.is_valid(forum_id, error=True)` (the
forums model in this source tree has no `is_valid`; spec §4.8 says the
supplied forum id is "validated to reference a live forum", failing the
request otherwise).  `liveForums` is the set of live forum ids. -/
def forumIsValid (liveForums : List Nat) (forumId : Nat) : Except String Bool :=
  if forumId ∈ liveForums then .ok true
  else .error ("Invalid Forum id " ++ toString forumId ++ ".")

/-- Python truthiness of the optional `topic` argument (`if topic:`). -/
def topicTruthy : Option String → Bool
  | none => false
  | some s => !s.isEmpty

/-- Python truthiness of the optional `forum_id` argument
(`if forum_id and ...`). -/
def forumIdTruthy : Option Nat → Bool
  | none => false
  | some 0 => false
  | some (_ + 1) => true

/-- `modify_thread` (threads.py lines 154-216) after the thread was
loaded: assign `topic` when truthy; when `forum_id` is truthy validate it
(raising on a dead/unknown forum, which discards the uncommitted
changes) and assign it; assign `locked` and `sticky` whenever they are
not absent, including explicit `false`; then commit. -/
def modify_thread (liveForums : List Nat) (thread : ThreadRec) (topic : Option String)
    (forumId : Option Nat) (locked sticky : Option Bool) : Except String ThreadRec := do
  let t1 := if topicTruthy topic then { thread with topic := topic.getD thread.topic }
            else thread
  let t2 ←
    if forumIdTruthy forumId then do
      let _ ← forumIsValid liveForums (forumId.getD 0)
      pure { t1 with forumId := forumId.getD 0 }
    else pure t1
  let t3 := match locked with
    | some b => { t2 with locked := b }
    | none => t2
  let t4 := match sticky with
    | some b => { t3 with sticky := b }
    | none => t3
  pure t4

/-- Claim C8: `modify_thread` changes `topic` only on a truthy topic;
changes `forum_id` only when the supplied id is truthy AND references a
valid forum — a truthy id that fails validation makes the whole request
raise (so nothing, `forum_id` included, is committed); applies
`locked`/`sticky` exactly when supplied (including explicit `false`);
and leaves every other field of the thread unchanged. -/
theorem modify_thread_frame (liveForums : List Nat) (thread : ThreadRec)
    (topic : Option String) (forumId : Option Nat) (locked sticky : Option Bool) :
    (forumIdTruthy forumId = false ∨ forumId.getD 0 ∈ liveForums →
      modify_thread liveForums thread topic forumId locked sticky =
        .ok { thread with
              topic := if topicTruthy topic then topic.getD thread.topic else thread.topic,
              forumId := if forumIdTruthy forumId then forumId.getD thread.forumId
                         else thread.forumId,
              locked := locked.getD thread.locked,
              sticky := sticky.getD thread.sticky }) ∧
    (forumIdTruthy forumId = true → forumId.getD 0 ∉ liveForums →
      modify_thread liveForums thread topic forumId locked sticky =
        .error ("Invalid Forum id " ++ toString (forumId.getD 0) ++ ".")) := by
  constructor
  · intro hfid
    by_cases htru : forumIdTruthy forumId = true
    · rcases forumId with _ | fid
      · simp [forumIdTruthy] at htru
      · rcases fid with _ | n
        · simp [forumIdTruthy] at htru
        · have hmem : n + 1 ∈ liveForums := by
            rcases hfid with h | h
            · simp [forumIdTruthy] at h
            · simpa using h
          rcases locked with _ | b <;> rcases sticky with _ | c <;>
            by_cases ht : topicTruthy topic = true <;>
              simp [modify_thread, forumIsValid, hmem, forumIdTruthy, ht, Option.getD,
                pure, Except.pure, bind, Except.bind]
    · have htru2 : forumIdTruthy forumId = false := by
        cases hh : forumIdTruthy forumId
        · rfl
        · exact absurd hh htru
      rcases locked with _ | b <;> rcases sticky with _ | c <;>
        by_cases ht : topicTruthy topic = true <;>
          simp [modify_thread, htru2, ht, Option.getD, pure, Except.pure, bind, Except.bind]
  · intro htru hmem
    rcases forumId with _ | fid
    · simp [forumIdTruthy] at htru
    · rcases fid with _ | n
      · simp [forumIdTruthy] at htru
      · have hmem2 : n + 1 ∉ liveForums := by simpa using hmem
        rcases locked with _ | b <;> rcases sticky with _ | c <;>
          by_cases ht : topicTruthy topic = true <;>
            simp [modify_thread, forumIsValid, hmem2, forumIdTruthy, ht, Option.getD,
              pure, Except.pure, bind, Except.bind]

/-- Witness for `modify_thread_frame`: moving a thread to live forum 2
while renaming, locking it and explicitly un-stickying it succeeds; the
same request naming dead/unknown forum 3 raises and commits nothing. -/
theorem modify_thread_frame_witness :
    modify_thread [2] ⟨6, "typos", 1, 9, false, true, false⟩ (some "fixed") (some 2)
        (some true) (some false) =
      .ok ⟨6, "fixed", 2, 9, true, false, false⟩ ∧
    modify_thread [2] ⟨6, "typos", 1, 9, false, true, false⟩ (some "fixed") (some 3)
        (some true) (some false) =
      .error "Invalid Forum id 3." := by
  constructor
  · have h := (modify_thread_frame [2] ⟨6, "typos", 1, 9, false, true, false⟩ (some "fixed")
      (some 2) (some true) (some false)).1 (Or.inr (by decide))
    simpa using h
  · have h := (modify_thread_frame [2] ⟨6, "typos", 1, 9, false, true, false⟩ (some "fixed")
      (some 3) (some true) (some false)).2 rfl (by decide)
    simpa using h

/-! ### Invite code validation at registration (`pulsar/users/views/register.py`) -/

/-- An invite row: code primary key, redeemer (absent until redeemed) and
send timestamp (seconds). -/
structure Invite where
  code : String
  inviteeId : Option Nat
  timeSent : Int
deriving Repr, DecidableEq

/-- Modelled from the spec: `Invite.from_code` (the invites model is not
in the source tree; spec §3 makes the 24-character code the invite's
primary key, so the lookup returns the invite stored under that code, if
any); `from_code(None)` finds nothing. -/
def inviteFromCode (invites : List Invite) : Option String → Option Invite
  | some c => invites.find? (fun i => i.code == c)
  | none => none

/-- Python truthiness of the `code` argument of `validate_invite_code`
(`if code:`). -/
def codeTruthy : Option String → Bool
  | none => false
  | some s => !s.isEmpty

/-- The two failure modes at users/views/register.py lines 64-66: a truthy
code is named as invalid, otherwise the code-required message. -/
def invalidCodeError (code : Option String) : Except String Unit :=
  if codeTruthy code then .error (code.getD "" ++ " is not a valid invite code.")
  else .error "An invite code is required for registration."

/-- `validate_invite_code(code)` (users/views/register.py lines 54-66):
returns normally when the invite exists, `invitee_id` is absent, and the
time since `time_sent` is strictly below `INVITE_LIFETIME`; raises
otherwise. -/
def validate_invite_code (invites : List Invite) (now : Int) (inviteLifetime : Int)
    (code : Option String) : Except String Unit :=
  match inviteFromCode invites code with
  | some invite =>
    if invite.inviteeId = none then
      if now - invite.timeSent < inviteLifetime then .ok ()
      else invalidCodeError code
    else invalidCodeError code
  | none => invalidCodeError code

/-- The invite gate of `register` (users/views/register.py lines 31-33):
`validate_invite_code` runs only when the site requires invite codes. -/
def registerInviteGate (requireInviteCode : Bool) (invites : List Invite)
    (now inviteLifetime : Int) (code : Option String) : Except String Unit :=
  if requireInviteCode then validate_invite_code invites now inviteLifetime code
  else .ok ()

theorem invalidCodeError_truthy (c : String) (hct : codeTruthy (some c) = true) :
    invalidCodeError (some c) = .error (c ++ " is not a valid invite code.") := by
  rw [invalidCodeError, if_pos hct]
  rfl

/-- Claim C5: under `REQUIRE_INVITE_CODE`, a submitted code passes
validation iff an invite with that code exists, was never redeemed, and
was sent strictly less than `INVITE_LIFETIME` seconds ago; otherwise
registration fails naming the bad code, or — when no code was supplied —
with the distinct code-required message. -/
theorem invite_code_validation (invites : List Invite) (now inviteLifetime : Int) :
    (∀ c : String,
      validate_invite_code invites now inviteLifetime (some c) = .ok () ↔
        ∃ invite, invites.find? (fun i => i.code == c) = some invite ∧
          invite.inviteeId = none ∧ now - invite.timeSent < inviteLifetime) ∧
    (∀ c : String, c ≠ "" →
      validate_invite_code invites now inviteLifetime (some c) ≠ .ok () →
      validate_invite_code invites now inviteLifetime (some c) =
        .error (c ++ " is not a valid invite code.")) ∧
    (validate_invite_code invites now inviteLifetime none =
      .error "An invite code is required for registration.") ∧
    (∀ code, registerInviteGate true invites now inviteLifetime code =
      validate_invite_code invites now inviteLifetime code) := by
  refine ⟨?_, ?_, ?_, ?_⟩
  · intro c
    constructor
    · intro h
      rw [validate_invite_code] at h
      cases hf : inviteFromCode invites (some c) with
      | none =>
        rcases hct : codeTruthy (some c) <;> simp [hf, invalidCodeError, hct] at h
      | some invite =>
        rw [hf] at h
        by_cases hinv : invite.inviteeId = none
        · by_cases htime : now - invite.timeSent < inviteLifetime
          · exact ⟨invite, hf, hinv, htime⟩
          · simp [hinv, htime, invalidCodeError] at h
            rcases hct : codeTruthy (some c) <;> simp [hct] at h
        · simp [hinv, invalidCodeError] at h
          rcases hct : codeTruthy (some c) <;> simp [hct] at h
    · rintro ⟨invite, hf, hinv, htime⟩
      rw [validate_invite_code]
      have : inviteFromCode invites (some c) = some invite := hf
      rw [this]
      simp [hinv, htime]
  · intro c hc hfail
    have hct : codeTruthy (some c) = true := by
      have hemp : c.isEmpty = false := by
        cases hemp : c.isEmpty
        · rfl
        · exact absurd ((String.isEmpty_iff c).mp hemp) hc
      simp [codeTruthy, hemp]
    have herr := invalidCodeError_truthy c hct
    rw [validate_invite_code] at hfail ⊢
    cases hf : inviteFromCode invites (some c) with
    | none => exact herr
    | some invite =>
      rw [hf] at hfail
      show (if invite.inviteeId = none then
              if now - invite.timeSent < inviteLifetime then Except.ok ()
              else invalidCodeError (some c)
            else invalidCodeError (some c)) = _
      by_cases hinv : invite.inviteeId = none
      · by_cases htime : now - invite.timeSent < inviteLifetime
        · refine absurd ?_ hfail
          show (if invite.inviteeId = none then
                  if now - invite.timeSent < inviteLifetime then Except.ok ()
                  else invalidCodeError (some c)
                else invalidCodeError (some c)) = Except.ok ()
          rw [if_pos hinv, if_pos htime]
        · rw [if_pos hinv, if_neg htime]
          exact herr
      · rw [if_neg hinv]
        exact herr
  · rfl
  · intro code; rfl

/-- Witness for `invite_code_validation`: a never-redeemed invite sent 10
seconds ago passes a 100-second lifetime window. -/
theorem invite_code_validation_witness :
    validate_invite_code [⟨"codeabc", none, 0⟩] 10 100 (some "codeabc") = .ok () :=
  ((invite_code_validation [⟨"codeabc", none, 0⟩] 10 100).1 "codeabc").mpr
    ⟨⟨"codeabc", none, 0⟩, by decide, rfl, by decide⟩

/-! ### Settings / change password (`pulsar/users/settings.py`, `edit_settings`) -/

/-- A user row as `edit_settings` consults it: id and stored password
secret (standing in for the salted hash). -/
structure SUser where
  id : Nat
  password : String
deriving Repr, DecidableEq

/-- A session row: hash primary key, owner and liveness flag. -/
structure SessionRow where
  hash : String
  userId : Nat
  expired : Bool
deriving Repr, DecidableEq

/-- An HTTP-level error: status code and message. -/
structure ApiError where
  status : Nat
  message : String
deriving Repr, DecidableEq

/-- Modelled from the spec: `choose_user(user_id, 'moderate_users')`
(pulsar.utils is not in the source tree): with no `user_id` the current
user is chosen; with a `user_id` the caller needs the `moderate_users`
permission to act on that user. -/
def choose_user (users : List SUser) (currentUser : SUser) (hasModerateUsers : Bool)
    (userId : Option Nat) : Except ApiError SUser :=
  match userId with
  | none => .ok currentUser
  | some uid =>
    if hasModerateUsers then
      match users.find? (fun u => u.id == uid) with
      | some u => .ok u
      | none => .error ⟨404, "Resource does not exist."⟩
    else .error ⟨403, "You do not have permission to access this resource."⟩

/-- Modelled from the spec: `User.check_password` (the users model is not
in the source tree; spec §4.6: verification of the presented password
against the stored salted hash, abstracted to comparing secrets).  An
absent presented password matches no stored hash. -/
def checkPassword (u : SUser) (presented : Option String) : Bool :=
  match presented with
  | some p => p == u.password
  | none => false

/-- Modelled from the spec: `Session.expire_all_of_user(user_id)` (the
auth models are not in the source tree; spec §4.6: sets the liveness flag
false on every session of the user). -/
def expireAllOfUser (sessions : List SessionRow) (userId : Nat) : List SessionRow :=
  sessions.map (fun s => if s.userId == userId then { s with expired := true } else s)

/-- Python truthiness of the `new_password` argument. -/
def pwTruthy : Option String → Bool
  | none => false
  | some s => !s.isEmpty

/-- `edit_settings` (users/settings.py lines 19-82): choose the target
user via `choose_user(user_id, 'moderate_users')`; when `new_password` is
truthy, require the `change_password` permission, check the presented
`existing_password` against the TARGET user's stored hash — the check is
applied unconditionally, also when a moderator edits another user's
password — then set the new password and expire every session of the
target user.  Returns the updated user and session tables. -/
def edit_settings (users : List SUser) (sessions : List SessionRow) (currentUser : SUser)
    (hasModerateUsers hasChangePassword : Bool) (userId : Option Nat)
    (existingPassword newPassword : Option String) :
    Except ApiError (List SUser × List SessionRow) := do
  let user ← choose_user users currentUser hasModerateUsers userId
  if pwTruthy newPassword then
    if !hasChangePassword then
      .error ⟨403, "You do not have permission to change this password."⟩
    else if !checkPassword user existingPassword then
      .error ⟨401, "Invalid existing password."⟩
    else
      .ok (users.map (fun u =>
            if u.id == user.id then { u with password := newPassword.getD u.password } else u),
          expireAllOfUser sessions user.id)
  else .ok (users, sessions)

/-- Claim C2: concrete evaluations of `edit_settings`.  A moderator
(user 1, all permissions) changing user 2's password without (or with
their own) existing password is rejected 401 "Invalid existing
password." — the existing-password check is NOT skipped on the moderation
route, contradicting the claim and the route's own docstring; the
password-mismatch wording and the expiry of every session of the affected
user on success do hold. -/
theorem edit_settings_moderation_check_not_skipped :
    edit_settings [⟨1, "modpw"⟩, ⟨2, "targetpw"⟩] [⟨"h1", 2, false⟩] ⟨1, "modpw"⟩
        true true (some 2) none (some "newpassword1") =
      .error ⟨401, "Invalid existing password."⟩ ∧
    edit_settings [⟨1, "modpw"⟩, ⟨2, "targetpw"⟩] [⟨"h1", 2, false⟩] ⟨1, "modpw"⟩
        true true (some 2) (some "modpw") (some "newpassword1") =
      .error ⟨401, "Invalid existing password."⟩ ∧
    edit_settings [⟨1, "modpw"⟩, ⟨2, "targetpw"⟩] [⟨"h1", 1, false⟩, ⟨"h2", 2, false⟩]
        ⟨2, "targetpw"⟩ false true none (some "wrongpw") (some "newpassword1") =
      .error ⟨401, "Invalid existing password."⟩ ∧
    edit_settings [⟨1, "modpw"⟩, ⟨2, "targetpw"⟩] [⟨"h1", 1, false⟩, ⟨"h2", 2, false⟩]
        ⟨2, "targetpw"⟩ false true none (some "targetpw") (some "newpassword1") =
      .ok ([⟨1, "modpw"⟩, ⟨2, "newpassword1"⟩], [⟨"h1", 1, false⟩, ⟨"h2", 2, true⟩]) :=
  ⟨rfl, rfl, rfl, rfl⟩

/-! ### Request authentication and route permission guard (spec-modelled) -/

/-- A user as the authentication layer sees it: id and effective
permission set. -/
structure AuthUser where
  id : Nat
  permissions : List String
deriving Repr, DecidableEq

/-- A cookie session credential row. -/
structure AuthSession where
  hash : String
  userId : Nat
  expired : Bool
deriving Repr, DecidableEq

/-- An API key credential row: public 10-character hash, secret portion
(standing in for the salted `keyhashsalt` verification) and owner. -/
structure ApiKeyRow where
  hash : String
  secret : String
  userId : Nat
  revoked : Bool
deriving Repr, DecidableEq

/-- The credential tables consulted by the before-request hook. -/
structure AuthEnv where
  users : List AuthUser
  sessions : List AuthSession
  apiKeys : List ApiKeyRow
deriving Repr, DecidableEq

/-- Modelled from the spec: the per-request identity resolution of §4.6
(the before-request hook lives in code outside this source tree; only its
tests are present).  The session cookie `(user_id, session_hash)` is
examined first: the session is looked up by hash and must be live and
owned by the cookie's user.  Otherwise an
`Authorization: Token <10-char-hash><secret>` header is split after the
10-character public hash and the secret verified against the key's
stored hash.  Anything else leaves the request anonymous. -/
def resolveIdentity (env : AuthEnv) (sessionCookie : Option (Nat × String))
    (authHeader : Option String) : Option AuthUser :=
  match sessionCookie with
  | some (uid, shash) =>
    match env.sessions.find? (fun s => s.hash == shash) with
    | some s =>
      if !s.expired && s.userId == uid then env.users.find? (fun u => u.id == s.userId)
      else none
    | none => none
  | none =>
    match authHeader with
    | some h =>
      if h.startsWith "Token " then
        let token := h.drop 6
        match env.apiKeys.find? (fun k => k.hash == token.take 10) with
        | some k =>
          if !k.revoked && k.secret == token.drop 10 then
            env.users.find? (fun u => u.id == k.userId)
          else none
        | none => none
      else none
    | none => none

/-- Modelled from the spec: the `require_permission` route decorator of
§4.5 together with the unauthenticated behavior of §6 (pulsar.utils is
not in the source tree): an unresolved identity gets the generic
not-found message; a resolved identity lacking the permission gets the
fixed 403 message; otherwise the handler response is returned. -/
def guardedRoute (env : AuthEnv) (sessionCookie : Option (Nat × String))
    (authHeader : Option String) (requiredPermission : String)
    (handlerResponse : Nat × String) : Nat × String :=
  match resolveIdentity env sessionCookie authHeader with
  | none => (404, "Resource does not exist.")
  | some u =>
    if u.permissions.contains requiredPermission then handlerResponse
    else (403, "You do not have permission to access this resource.")

/-- Claim C9: on a route requiring a permission, an unresolvable identity
(no credentials, or a forged/invalid session or bearer token) yields the
generic "Resource does not exist." response rather than an authentication
challenge, and an identified caller lacking the permission yields exactly
HTTP 403 "You do not have permission to access this resource.". -/
theorem route_permission_responses (env : AuthEnv) (sessionCookie : Option (Nat × String))
    (authHeader : Option String) (perm : String) (resp : Nat × String) :
    (resolveIdentity env sessionCookie authHeader = none →
      guardedRoute env sessionCookie authHeader perm resp =
        (404, "Resource does not exist.")) ∧
    (∀ u, resolveIdentity env sessionCookie authHeader = some u →
      u.permissions.contains perm = false →
      guardedRoute env sessionCookie authHeader perm resp =
        (403, "You do not have permission to access this resource.")) := by
  constructor
  · intro h
    rw [guardedRoute, h]
  · intro u h hp
    rw [guardedRoute, h]
    show (if u.permissions.contains perm = true then resp
          else (403, "You do not have permission to access this resource.")) =
        (403, "You do not have permission to access this resource.")
    rw [hp]
    rfl

/-- Witness for `route_permission_responses`: a forged session hash gets
the not-found message, and a valid session for a user without
`expire_sessions` gets the fixed 403 message. -/
theorem route_permission_responses_witness :
    guardedRoute ⟨[⟨1, ["view_forums"]⟩], [⟨"abcdefghij", 1, false⟩], []⟩
        (some (1, "notarealkey")) none "view_forums" (200, "ok") =
      (404, "Resource does not exist.") ∧
    guardedRoute ⟨[⟨1, ["view_forums"]⟩], [⟨"abcdefghij", 1, false⟩], []⟩
        (some (1, "abcdefghij")) none "expire_sessions" (200, "ok") =
      (403, "You do not have permission to access this resource.") :=
  ⟨(route_permission_responses ⟨[⟨1, ["view_forums"]⟩], [⟨"abcdefghij", 1, false⟩], []⟩
      (some (1, "notarealkey")) none "view_forums" (200, "ok")).1 (by decide),
   (route_permission_responses ⟨[⟨1, ["view_forums"]⟩], [⟨"abcdefghij", 1, false⟩], []⟩
      (some (1, "abcdefghij")) none "expire_sessions" (200, "ok")).2
     ⟨1, ["view_forums"]⟩ (by decide) (by decide)⟩

end Pulsar
